import Mathlib

/-!
Verification of the PowerToFly jobs scraper (Apify actor).

The development shallowly embeds the scraper's pure core: the field
normalizer (cleanText, normalizeLocation, extractJobId), the JSON-LD /
CSS-selector merge performed by the detail request handler, the record
assembly, the search-API discovery loop with its dedupe set, and the
detail fetch loop with its saved-count quota guard.

External collaborators (the WHATWG URL parser, cheerio's DOM text
extraction, the crawlee fetch/retry machinery) are modelled at their
interface: URL parsing as a simplified hierarchical-URL parser, DOM text
extraction as a tag stripper, and a fetch as a function from URL to an
optional fetched page (None = the fetch failed on every retry attempt, or
yielded no DOM).  All string operations are implemented on the underlying
character lists so that concrete inputs evaluate by kernel reduction.
-/

/-- Whitespace class used by the JS regex \s and String.trim in the model
(restricted to the ASCII whitespace characters). -/
def isJsWs (c : Char) : Bool :=
  c = ' ' || c = '\t' || c = '\n' || c = '\r' || c = '\x0b' || c = '\x0c'

/-- JS String.prototype.trim on the character list: drop whitespace from
both ends. -/
def trimWsL (l : List Char) : List Char :=
  ((l.dropWhile isJsWs).reverse.dropWhile isJsWs).reverse

/-- JS String.prototype.trim. -/
def jsTrim (s : String) : String := ⟨trimWsL s.data⟩

/-- JS truthiness of an optional string: null/undefined and the empty
string are falsy. -/
def jsFalsy : Option String → Bool
  | none => true
  | some s => decide (s = "")

/-- The JS idiom (x || null) for a string x: the empty string collapses to
null. -/
def strOrNull (s : String) : Option String :=
  if s = "" then none else some s

/-- The JS idiom (x || null) for a nullable string x. -/
def jsOrNull : Option String → Option String
  | none => none
  | some s => strOrNull s

/-- Does the character list start with the given needle? -/
def startsWithL : List Char → List Char → Bool
  | [], _ => true
  | _ :: _, [] => false
  | a :: as, b :: bs => a == b && startsWithL as bs

/-- JS String.prototype.includes on character lists. -/
def containsSegL (needle : List Char) : List Char → Bool
  | [] => needle.isEmpty
  | c :: cs => startsWithL needle (c :: cs) || containsSegL needle cs

/-- JS String.prototype.toLowerCase on character lists (character-wise). -/
def lowerL (l : List Char) : List Char := l.map Char.toLower

/-- JS String.prototype.split on a character class: splits at every
delimiter occurrence, keeping empty pieces. -/
def splitOnDelims (delims : List Char) : List Char → List (List Char)
  | [] => [[]]
  | c :: cs =>
      if delims.contains c then [] :: splitOnDelims delims cs
      else
        match splitOnDelims delims cs with
        | [] => [[c]]
        | p :: ps => (c :: p) :: ps

/-- JS Array.prototype.join with a separator, on character lists. -/
def joinSep (sep : List Char) : List (List Char) → List Char
  | [] => []
  | [x] => x
  | x :: y :: t => x ++ sep ++ joinSep sep (y :: t)

/-- Last element of a list with a default, mirroring the JS access
parts[parts.length - 1] (undefined for an empty array). -/
def lastD (l : List String) (d : String) : String :=
  match l with
  | [] => d
  | [a] => a
  | _ :: b :: t => lastD (b :: t) d

/-- The JS idiom (x || null) for a string materialized from a character
list: the empty list collapses to null. -/
def mkOrNull (l : List Char) : Option String :=
  if l.isEmpty then none else some ⟨l⟩

/-- JS Set.prototype.add on an insertion-ordered set modelled as a
duplicate-free list: appends only if absent, keeping first-seen order. -/
def insertSet (l : List String) (x : String) : List String :=
  if x ∈ l then l else l ++ [x]

/-- Spreading an iterable through new Set(...): keeps the first occurrence
of each element, in order. -/
def firstDedup (l : List String) : List String :=
  l.foldl insertSet []

/-- Modelled collaborator (WHATWG URL): the parsed parts the scraper
reads.  Only the pathname is consumed by the source. -/
structure UrlParts where
  pathname : String
deriving DecidableEq, Repr

/-- Scan for the first "://", returning the characters before it and
after it. -/
def splitSchemeSep : List Char → Option (List Char × List Char)
  | [] => none
  | ':' :: '/' :: '/' :: rest => some ([], rest)
  | c :: cs =>
      match splitSchemeSep cs with
      | none => none
      | some (a, b) => some (c :: a, b)

/-- Split authority from path: characters before the first '/', and the
remainder starting at that '/'. -/
def breakAtSlash : List Char → List Char × List Char
  | [] => ([], [])
  | '/' :: cs => ([], '/' :: cs)
  | c :: cs =>
      let p := breakAtSlash cs
      (c :: p.1, p.2)

/-- Modelled collaborator (the JS new URL constructor), restricted to
hierarchical scheme://host/path?query URLs: succeeds when the input has an
alphabetic scheme, the "://" separator and a non-empty authority; the
pathname is the part from the first '/' after the authority up to a '?'
or '#', or "/" when absent.  Strings without this shape (e.g. "not a
url") fail to parse, which in the source raises and is caught. -/
def parseUrl (s : String) : Option UrlParts :=
  match splitSchemeSep s.data with
  | none => none
  | some (scheme, rest) =>
      if scheme.isEmpty || !(scheme.all Char.isAlpha) then none
      else
        let hp := breakAtSlash rest
        if hp.1.isEmpty then none
        else
          let path := hp.2.takeWhile (fun c => !(c == '?' || c == '#'))
          some ⟨if path.isEmpty then ("/") else ⟨path⟩⟩

/-- The non-empty path segments of a parsed URL
(u.pathname.split on '/' followed by filter(Boolean)). -/
def pathSegs (u : UrlParts) : List String :=
  ((splitOnDelims ['/'] u.pathname.data).map (fun l => String.mk l)).filter
    (fun p => p ≠ "")

/-- extractJobId from src/src/main.js lines 881-889: the last non-empty
path segment of the URL; when URL parsing fails the input is returned
unchanged (as is a URL whose path has no non-empty segment, through the
falsy access parts[parts.length - 1] || url). -/
def extractJobId (url : String) : String :=
  match parseUrl url with
  | none => url
  | some u =>
      let cand := lastD (pathSegs u) ""
      if cand = "" then url else cand

example : extractJobId ("https://site.example/jobs/detail/998877") = ("998877" : String) := by decide
example : extractJobId ("not a url") = ("not a url" : String) := by decide
example : extractJobId ("https://powertofly.com/jobs/detail/123?src=x") = ("123" : String) := by decide
example : parseUrl ("https://site.example/") = some ⟨("/")⟩ := by decide

/-- Modelled collaborator (cheerio text extraction, the
$(body).text() step inside cleanText): a simple tag stripper.  The
properties proved about cleanText depend only on the whitespace
normalization the source applies to this collaborator's output. -/
def stripTagsL : Bool → List Char → List Char
  | _, [] => []
  | true, c :: cs => if c = '>' then stripTagsL false cs else stripTagsL true cs
  | false, c :: cs => if c = '<' then stripTagsL true cs else c :: stripTagsL false cs

/-- The JS replace of every whitespace run by a single space
(txt.replace with the \s+ pattern): the flag records whether the
previous input character was whitespace (so the run emits one space
only). -/
def collapseWsL : Bool → List Char → List Char
  | _, [] => []
  | prevWs, c :: cs =>
      if isJsWs c then
        if prevWs then collapseWsL true cs else ' ' :: collapseWsL true cs
      else c :: collapseWsL false cs

/-- cleanText from src/src/main.js lines 776-781: null for falsy input,
otherwise the DOM text with whitespace runs collapsed to single spaces
and trimmed, the empty result collapsing to null. -/
def cleanText (html : String) : Option String :=
  if html = "" then none
  else
    let txt := stripTagsL false html.data
    let normd := trimWsL (collapseWsL false txt)
    if normd.isEmpty then none else some ⟨normd⟩

/-- cleanText applied to the nullable description_html field
(data.description_text = cleanText(data.description_html)). -/
def cleanTextOpt : Option String → Option String
  | none => none
  | some h => cleanText h

example : cleanText ("<p> a   b </p>") = some ("a b") := by decide
example : cleanText ("") = none := by decide
example : cleanText ("<p></p>") = none := by decide

/-- The four normalized location fields returned by normalizeLocation. -/
structure LocNorm where
  location : Option String
  is_remote : Option Bool
  remote_type : Option String
  region : Option String
deriving DecidableEq, Repr

/-- The remote test applied to one segment inside normalizeLocation
(p.toLowerCase().includes with the "remote" literal). -/
def hasRemoteSeg (p : List Char) : Bool :=
  containsSegL ("remote".data) (lowerL p)

/-- The segment computation of normalizeLocation: the raw text is
trimmed, stripped of square brackets, split on the delimiter class, and
the pieces are trimmed with empty pieces discarded (the filter on
Boolean). -/
def locPartsWith (delims : List Char) (r : String) : List (List Char) :=
  let text := (trimWsL r.data).filter (fun c => !(c == '[' || c == ']'))
  ((splitOnDelims delims text).map trimWsL).filter (fun l => !l.isEmpty)

/-- The classification loop of normalizeLocation: walks the trimmed
non-empty segments; a segment whose lowercase form contains "remote"
sets the remote flag and (only the first such segment, via the falsy
check on remoteType) the remote descriptor; other segments are appended
to the location parts in encounter order. -/
def classifyParts : List (List Char) → Bool → Option (List Char) → List (List Char) →
    Bool × Option (List Char) × List (List Char)
  | [], isR, rt, locs => (isR, rt, locs)
  | p :: rest, isR, rt, locs =>
      if hasRemoteSeg p then
        classifyParts rest true (match rt with
          | none => some p
          | some l => if l.isEmpty then some p else some l) locs
      else classifyParts rest isR rt (locs ++ [p])

/-- Shared body of the normalizeLocation revisions, parameterized by the
delimiter character class of the split: trims the raw text, strips
square brackets, splits on the delimiters into trimmed non-empty
segments, classifies them, and joins the non-remote segments with
" / "; every field applies the (x || null) collapse of the source. -/
def normalizeLocationWith (delims : List Char) (raw : Option String) : LocNorm :=
  match raw with
  | none => ⟨none, none, none, none⟩
  | some r =>
      if r = "" then ⟨none, none, none, none⟩
      else
        let parts := locPartsWith delims r
        let c := classifyParts parts false none []
        let joined := joinSep (" / ".data) c.2.2
        { location := mkOrNull joined
          is_remote := if c.1 then some true else none
          remote_type := match c.2.1 with
            | none => none
            | some l => mkOrNull l
          region := mkOrNull joined }

/-- normalizeLocation from src/src/main.js lines 783-812 (the search-API
revision): its split character class is pipe, slash, comma, hyphen. -/
def normalizeLocation (raw : Option String) : LocNorm :=
  normalizeLocationWith ['|', '/', ',', '-'] raw

/-- normalizeLocation as written in the other four revisions
(src/unnamed/part_000 lines 122-149, part_001, part_002 and the earlier
main.js revision): the split character class additionally contains the
middle-dot and bullet characters. -/
def normalizeLocationP0 (raw : Option String) : LocNorm :=
  normalizeLocationWith ['·', '•', '|', '/', ',', '-'] raw

example : normalizeLocation (some ("Remote · New York, NY")) =
    ⟨some ("NY"), some true, some ("Remote · New York"), some ("NY")⟩ := by decide
example : normalizeLocationP0 (some ("Remote · New York, NY")) =
    ⟨some ("New York / NY"), some true, some ("Remote"), some ("New York / NY")⟩ := by decide
example : normalizeLocation (some ("New York")) =
    ⟨some ("New York"), none, none, some ("New York")⟩ := by decide
example : normalizeLocation none = ⟨none, none, none, none⟩ := by decide

/-- The incomplete record projected out of a JSON-LD JobPosting block by
parseJsonLd (src/src/main.js lines 814-879).  A None field was absent
from the structured data; the JSON scanning itself is a collaborator
boundary (the parsed blocks arrive through the DOM), so the handler is
modelled on parseJsonLd's result. -/
structure LdData where
  title : Option String := none
  company : Option String := none
  location : Option String := none
  date_posted : Option String := none
  job_type : Option String := none
  salary : Option String := none
  description_html : Option String := none
deriving DecidableEq, Repr

/-- The empty object the handler falls back to (parseJsonLd($) || {}). -/
def emptyLd : LdData := {}

/-- A fetched detail page as the request handler reads it: the JSON-LD
extraction result and the raw results of each CSS-selector lookup
(.text() of the first match, which is the empty string when nothing
matches; .html() and .attr(), which are null when nothing matches). -/
structure Page where
  ld : Option LdData := none
  titleText : String := ""
  companyText : String := ""
  descriptionHtml : Option String := none
  locationText : String := ""
  dateAttr : Option String := none
  dateText : String := ""
  jobTypeText : String := ""
  salaryText : String := ""
deriving Repr

/-- The intermediate accumulator the detail handler fills (the data
object of src/src/main.js lines 1036-1094) after both extraction
passes. -/
structure RawJobData where
  title : Option String
  company : Option String
  location : Option String
  date_posted : Option String
  job_type : Option String
  salary : Option String
  description_html : Option String
  description_text : Option String
deriving DecidableEq, Repr

/-- The merge of structured and unstructured extraction performed by the
detail request handler (src/src/main.js lines 1036-1094): JSON-LD values
are the base and each CSS fallback fills only the fields the structured
pass left falsy (absent or empty). -/
def buildData (p : Page) : RawJobData :=
  let ld := p.ld.getD emptyLd
  let title := if jsFalsy ld.title then strOrNull (jsTrim p.titleText) else ld.title
  let company := if jsFalsy ld.company then strOrNull (jsTrim p.companyText) else ld.company
  let dhtml :=
    if jsFalsy ld.description_html then
      match p.descriptionHtml with
      | none => none
      | some d => if d = "" then none else some (jsTrim d)
    else ld.description_html
  let dtext := cleanTextOpt dhtml
  let date :=
    if jsFalsy ld.date_posted then
      match p.dateAttr.map jsTrim with
      | some a => if a = "" then strOrNull (jsTrim p.dateText) else some a
      | none => strOrNull (jsTrim p.dateText)
    else ld.date_posted
  let jtype := if jsFalsy ld.job_type then strOrNull (jsTrim p.jobTypeText) else ld.job_type
  let sal := if jsFalsy ld.salary then strOrNull (jsTrim p.salaryText) else ld.salary
  { title := title, company := company
    location := if jsFalsy ld.location then strOrNull (jsTrim p.locationText) else ld.location
    date_posted := date, job_type := jtype, salary := sal
    description_html := dhtml, description_text := dtext }

/-- The output record shape pushed to the dataset by the detail request
handler (the item literal of src/src/main.js lines 1096-1110). -/
structure JobRecord where
  job_id : String
  url : String
  title : Option String
  company : Option String
  location : Option String
  is_remote : Option Bool
  remote_type : Option String
  region : Option String
  salary : Option String
  job_type : Option String
  date_posted : Option String
  description_html : Option String
  description_text : Option String
deriving DecidableEq, Repr

/-- Assembly of the final item from the merged data (src/src/main.js
lines 1063-1110): the location fields come exclusively from
normalizeLocation applied to the merged location string, and every other
content field passes through the (x || null) collapse. -/
def assembleItem (url : String) (p : Page) : JobRecord :=
  let d := buildData p
  let locNorm := normalizeLocation d.location
  { job_id := extractJobId url
    url := url
    title := jsOrNull d.title
    company := jsOrNull d.company
    location := locNorm.location
    is_remote := locNorm.is_remote
    remote_type := locNorm.remote_type
    region := locNorm.region
    salary := jsOrNull d.salary
    job_type := jsOrNull d.job_type
    date_posted := jsOrNull d.date_posted
    description_html := jsOrNull d.description_html
    description_text := jsOrNull d.description_text }

/-- One job row of a search-API response page inside the discovery loop
(src/src/main.js lines 979-982): a falsy id is skipped, then the id is
added to the insertion-ordered jobIds set unless dedupe is on and the id
is already present (the add on a present member is itself a no-op).
Numeric API ids are modelled by their decimal interpolation into the
detail-URL template, which is how the source consumes them. -/
def addJob (dedupe : Bool) (ids : List String) (id : String) : List String :=
  if id = "" then ids
  else if !dedupe || id ∉ ids then insertSet ids id else ids

/-- The search-API pagination loop of src/src/main.js lines 961-997,
with the page cursor modelled by the list of successive API job arrays
and the remaining page budget as fuel (page starts at 1 and the loop
runs while page <= MAX_PAGES and the set is below quota).  An exhausted
page list behaves as an empty jobs array, which like a fetch error stops
the loop.  The gained = 0 and quota break conditions follow the
source's order. -/
def searchLoop (dedupe : Bool) (quota : Nat) : Nat → List (List String) → List String → List String
  | 0, _, ids => ids
  | fuel + 1, pages, ids =>
      if quota ≤ ids.length then ids
      else
        let jobs := pages.headD []
        let ids2 := jobs.foldl (addJob dedupe) ids
        if jobs.isEmpty || ids2.length = ids.length then ids2
        else if quota ≤ ids2.length then ids2
        else searchLoop dedupe quota fuel pages.tail ids2

/-- The fixed leading part of every templated detail URL (DETAIL_BASE). -/
def detailBase : String := "https://powertofly.com/jobs/detail/"

/-- The regex test for a job detail URL (the /jobs/detail/ path pattern,
case-insensitive). -/
def hasDetailSeg (u : String) : Bool :=
  containsSegL ("/jobs/detail/".data) (lowerL u.data)

/-- The discovery phase of src/src/main.js lines 948-1005: a provided
detail startUrl seeds both the detail URL list and, through extractJobId,
the jobIds set; the search loop then collects ids; the candidate list is
the set-spread of the seed URLs followed by the templated detail URLs of
the collected ids, truncated to the quota. -/
def discover (startUrl : Option String) (pages : List (List String))
    (quota maxPages : Nat) (dedupe : Bool) : List String :=
  let seeded := match startUrl with
    | none => false
    | some u => !(u = "") && hasDetailSeg u
  let seedUrls := match startUrl with
    | none => []
    | some u => if seeded then [u] else []
  let ids0 := match startUrl with
    | none => []
    | some u => if seeded then [extractJobId u] else []
  let ids := searchLoop dedupe quota maxPages pages ids0
  (firstDedup (seedUrls ++ ids.map (fun id => detailBase ++ id))).take quota

/-- One step of the detail fetch loop (the requestHandler of
src/src/main.js lines 1027-1115, sequentialized): a handler invocation
first short-circuits on the saved-count quota guard; a URL whose fetch
never succeeded (or yielded no DOM) produces nothing — the crawler has
no failure handler, so exhausted requests are only logged; a fetched
page is assembled into one record and counted. -/
def runDetailAux (fetch : String → Option Page) (quota : Nat) :
    List String → Nat → List JobRecord → Nat × List JobRecord
  | [], saved, out => (saved, out)
  | u :: us, saved, out =>
      if quota ≤ saved then runDetailAux fetch quota us saved out
      else
        match fetch u with
        | none => runDetailAux fetch quota us saved out
        | some p => runDetailAux fetch quota us (saved + 1) (out ++ [assembleItem u p])

/-- The detail crawl over the discovered URLs, starting from zero saved
records and an empty output dataset. -/
def runDetail (fetch : String → Option Page) (quota : Nat) (urls : List String) :
    Nat × List JobRecord :=
  runDetailAux fetch quota urls 0 []

example : discover (some ("https://powertofly.com/jobs/detail/123?src=x")) [[]] 10 20 true =
    [("https://powertofly.com/jobs/detail/123?src=x"), ("https://powertofly.com/jobs/detail/123")] := by
  decide
example : discover none [[("1"), ("2")], [("2"), ("3")]] 10 20 true =
    [detailBase ++ ("1"), detailBase ++ ("2"), detailBase ++ ("3")] := by decide
example : discover none [[("1"), ("2"), ("3")]] 2 20 true =
    [detailBase ++ ("1"), detailBase ++ ("2")] := by decide
example : (runDetail (fun _ => none) 3 [("u")]).2 = [] := by decide

/-- Field predicate of the output invariant: a nullable string field is
either null or a non-empty string. -/
def goodStr : Option String → Bool
  | none => true
  | some s => decide (s ≠ "")

theorem strOrNull_good (s : String) : goodStr (strOrNull s) = true := by
  unfold strOrNull
  split <;> simp [goodStr, *]

theorem jsOrNull_good (o : Option String) : goodStr (jsOrNull o) = true := by
  cases o with
  | none => rfl
  | some s => exact strOrNull_good s

theorem mk_ne_empty {l : List Char} (h : l ≠ []) : String.mk l ≠ ("" : String) := by
  intro he
  apply h
  have hd : (String.mk l).data = ("" : String).data := by rw [he]
  simpa using hd

theorem lastD_mem (d : String) : ∀ l : List String, l ≠ [] → lastD l d ∈ l := by
  intro l
  induction l with
  | nil => intro h; exact absurd rfl h
  | cons a t ih =>
      intro _
      cases t with
      | nil => simp [lastD]
      | cons b t2 =>
          have := ih (by simp)
          simp only [lastD]
          exact List.mem_cons_of_mem a this

theorem extractJobId_ne_empty {url : String} (h : url ≠ "") : extractJobId url ≠ "" := by
  unfold extractJobId
  cases hp : parseUrl url with
  | none => exact h
  | some u =>
      simp only []
      split
      · exact h
      · assumption

theorem mkOrNull_good (l : List Char) : goodStr (mkOrNull l) = true := by
  unfold mkOrNull
  split
  · rfl
  · rename_i h
    simp only [goodStr]
    simp [mk_ne_empty (by simpa [List.isEmpty_iff] using h)]

theorem locNorm_good (delims : List Char) (raw : Option String) :
    goodStr (normalizeLocationWith delims raw).location = true ∧
    ((normalizeLocationWith delims raw).is_remote = none ∨
      (normalizeLocationWith delims raw).is_remote = some true) ∧
    goodStr (normalizeLocationWith delims raw).remote_type = true ∧
    goodStr (normalizeLocationWith delims raw).region = true := by
  cases raw with
  | none => exact ⟨rfl, Or.inl rfl, rfl, rfl⟩
  | some r =>
      by_cases hr : r = ""
      · simp [normalizeLocationWith, hr, goodStr]
      · simp only [normalizeLocationWith, if_neg hr]
        refine ⟨mkOrNull_good _, ?_, ?_, mkOrNull_good _⟩
        · split
          · exact Or.inr rfl
          · exact Or.inl rfl
        · split
          · rfl
          · exact mkOrNull_good _

theorem jsOrNull_strOrNull (s : String) : jsOrNull (strOrNull s) = strOrNull s := by
  unfold strOrNull
  split
  · rfl
  · simp [jsOrNull, strOrNull, *]

theorem runDetailAux_skip {fetch : String → Option Page} {quota saved : Nat}
    {u : String} (us : List String) (out : List JobRecord)
    (h : quota ≤ saved) :
    runDetailAux fetch quota (u :: us) saved out = runDetailAux fetch quota us saved out := by
  simp [runDetailAux, h]

theorem runDetailAux_miss {fetch : String → Option Page} {quota saved : Nat}
    {u : String} (us : List String) (out : List JobRecord)
    (h : ¬ quota ≤ saved) (hf : fetch u = none) :
    runDetailAux fetch quota (u :: us) saved out = runDetailAux fetch quota us saved out := by
  simp [runDetailAux, h, hf]

theorem runDetailAux_hit {fetch : String → Option Page} {quota saved : Nat}
    {u : String} {p : Page} (us : List String) (out : List JobRecord)
    (h : ¬ quota ≤ saved) (hf : fetch u = some p) :
    runDetailAux fetch quota (u :: us) saved out =
      runDetailAux fetch quota us (saved + 1) (out ++ [assembleItem u p]) := by
  simp [runDetailAux, h, hf]

theorem runDetailAux_spec (fetch : String → Option Page) (quota : Nat) :
    ∀ (urls : List String) (saved : Nat) (out : List JobRecord), saved ≤ quota →
      saved ≤ (runDetailAux fetch quota urls saved out).1 ∧
      (runDetailAux fetch quota urls saved out).1 ≤ quota ∧
      (runDetailAux fetch quota urls saved out).2.length =
        out.length + ((runDetailAux fetch quota urls saved out).1 - saved) := by
  intro urls
  induction urls with
  | nil =>
      intro saved out hs
      exact ⟨Nat.le_refl _, hs, by simp [runDetailAux]⟩
  | cons u us ih =>
      intro saved out hs
      by_cases hq : quota ≤ saved
      · rw [runDetailAux_skip us out hq]
        exact ih saved out hs
      · cases hf : fetch u with
        | none =>
            rw [runDetailAux_miss us out hq hf]
            exact ih saved out hs
        | some p =>
            rw [runDetailAux_hit us out hq hf]
            have hs1 : saved + 1 ≤ quota := by omega
            obtain ⟨h1, h2, h3⟩ := ih (saved + 1) (out ++ [assembleItem u p]) hs1
            refine ⟨by omega, h2, ?_⟩
            rw [h3]
            simp only [List.length_append, List.length_singleton]
            omega

theorem runDetailAux_no_failed (fetch : String → Option Page) (quota : Nat) (u : String)
    (hu : fetch u = none) :
    ∀ (urls : List String) (saved : Nat) (out : List JobRecord),
      ((runDetailAux fetch quota urls saved out).2.filter
          (fun r => decide (r.url = u))).length =
        (out.filter (fun r => decide (r.url = u))).length := by
  intro urls
  induction urls with
  | nil => intro saved out; simp [runDetailAux]
  | cons v us ih =>
      intro saved out
      by_cases hq : quota ≤ saved
      · rw [runDetailAux_skip us out hq]
        exact ih saved out
      · cases hf : fetch v with
        | none =>
            rw [runDetailAux_miss us out hq hf]
            exact ih saved out
        | some p =>
            rw [runDetailAux_hit us out hq hf]
            have hvu : ¬ ((assembleItem v p).url = u) := by
              intro he
              have hv : (assembleItem v p).url = v := rfl
              rw [hv] at he
              rw [he, hu] at hf
              exact Option.noConfusion hf
            rw [ih (saved + 1) (out ++ [assembleItem v p])]
            simp [List.filter_append, decide_eq_false hvu]

theorem insertSet_nodup {l : List String} (h : l.Nodup) (x : String) :
    (insertSet l x).Nodup := by
  unfold insertSet
  split
  · exact h
  · rename_i hx
    simp [List.nodup_append, h, hx]

theorem addJob_nodup {l : List String} (h : l.Nodup) (d : Bool) (id : String) :
    (addJob d l id).Nodup := by
  unfold addJob
  split
  · exact h
  · split
    · exact insertSet_nodup h id
    · exact h

theorem foldl_addJob_nodup (d : Bool) :
    ∀ (jobs : List String) (l : List String), l.Nodup → (jobs.foldl (addJob d) l).Nodup := by
  intro jobs
  induction jobs with
  | nil => intro l h; exact h
  | cons j js ih =>
      intro l h
      exact ih (addJob d l j) (addJob_nodup h d j)

theorem searchLoop_nodup (d : Bool) (quota : Nat) :
    ∀ (fuel : Nat) (pages : List (List String)) (ids : List String),
      ids.Nodup → (searchLoop d quota fuel pages ids).Nodup := by
  intro fuel
  induction fuel with
  | zero => intro pages ids h; exact h
  | succ n ih =>
      intro pages ids h
      simp only [searchLoop]
      split
      · exact h
      · have h2 := foldl_addJob_nodup d (pages.headD []) ids h
        split
        · exact h2
        · split
          · exact h2
          · exact ih pages.tail _ h2

theorem foldl_insertSet_append :
    ∀ (l acc : List String), l.Nodup → (∀ x ∈ l, x ∉ acc) →
      l.foldl insertSet acc = acc ++ l := by
  intro l
  induction l with
  | nil => intro acc _ _; simp
  | cons a t ih =>
      intro acc hn hd
      have ha : a ∉ acc := hd a (by simp)
      have step : insertSet acc a = acc ++ [a] := by simp [insertSet, ha]
      simp only [List.foldl_cons, step]
      rw [ih (acc ++ [a]) hn.of_cons]
      · simp
      · intro x hx
        simp only [List.mem_append, List.mem_singleton]
        rintro (hxa | hxa)
        · exact hd x (by simp [hx]) hxa
        · rw [hxa] at hx
          exact (List.nodup_cons.mp hn).1 hx

theorem firstDedup_self {l : List String} (h : l.Nodup) : firstDedup l = l := by
  unfold firstDedup
  rw [foldl_insertSet_append l [] h (by simp)]
  simp

theorem detailBase_append_inj : Function.Injective (fun id => detailBase ++ id) := by
  intro a b h
  simp only [] at h
  have hd : (detailBase ++ a).data = (detailBase ++ b).data := by rw [h]
  rw [String.data_append, String.data_append] at hd
  exact String.ext (List.append_cancel_left hd)

theorem addJob_flag_eq : addJob true = addJob false := by
  funext l id
  unfold addJob
  by_cases h0 : id = ""
  · simp [h0]
  · by_cases hm : id ∈ l
    · simp [h0, hm, insertSet]
    · simp [h0, hm]

theorem searchLoop_flag_eq (quota : Nat) :
    ∀ (fuel : Nat) (pages : List (List String)) (ids : List String),
      searchLoop true quota fuel pages ids = searchLoop false quota fuel pages ids := by
  intro fuel
  induction fuel with
  | zero => intro pages ids; rfl
  | succ n ih =>
      intro pages ids
      simp only [searchLoop, addJob_flag_eq]
      split
      · rfl
      · split
        · rfl
        · split
          · rfl
          · exact ih pages.tail _

/-- Two adjacent characters are not both whitespace: the absence of a
whitespace run of length two or more. -/
def noWsPair (a b : Char) : Prop := ¬(isJsWs a = true ∧ isJsWs b = true)

theorem noWsPair_swap {a b : Char} (h : noWsPair a b) : noWsPair b a := by
  intro hc
  exact h ⟨hc.2, hc.1⟩

theorem collapse_head_not_ws :
    ∀ (l : List Char) (c : Char), (collapseWsL true l).head? = some c → isJsWs c = false := by
  intro l
  induction l with
  | nil => intro c h; simp [collapseWsL] at h
  | cons a t ih =>
      intro c h
      by_cases hw : isJsWs a
      · rw [show collapseWsL true (a :: t) = collapseWsL true t from by simp [collapseWsL, hw]] at h
        exact ih c h
      · rw [show collapseWsL true (a :: t) = a :: collapseWsL false t from by
          simp [collapseWsL, hw]] at h
        simp only [List.head?_cons, Option.some.injEq] at h
        rw [← h]
        exact Bool.not_eq_true _ ▸ (by simpa using hw)

theorem collapse_chain : ∀ (l : List Char) (b : Bool),
    List.Chain' noWsPair (collapseWsL b l) := by
  intro l
  induction l with
  | nil => intro b; simp [collapseWsL]
  | cons a t ih =>
      intro b
      by_cases hw : isJsWs a
      · cases b with
        | true =>
            rw [show collapseWsL true (a :: t) = collapseWsL true t from by simp [collapseWsL, hw]]
            exact ih true
        | false =>
            rw [show collapseWsL false (a :: t) = ' ' :: collapseWsL true t from by
              simp [collapseWsL, hw]]
            rw [List.chain'_cons']
            refine ⟨?_, ih true⟩
            intro y hy
            intro hc
            rw [collapse_head_not_ws t y hy] at hc
            exact Bool.noConfusion hc.2
      · rw [show collapseWsL b (a :: t) = a :: collapseWsL false t from by
          simp [collapseWsL, hw]]
        rw [List.chain'_cons']
        refine ⟨?_, ih false⟩
        intro y _ hc
        exact hw (by simpa using hc.1)

theorem chain_dropWhile (p : Char → Bool) {R : Char → Char → Prop} :
    ∀ l : List Char, List.Chain' R l → List.Chain' R (l.dropWhile p) := by
  intro l
  induction l with
  | nil => intro h; exact h
  | cons a t ih =>
      intro h
      by_cases hp : p a
      · rw [show (a :: t).dropWhile p = t.dropWhile p from by simp [List.dropWhile_cons, hp]]
        exact ih h.tail
      · rw [show (a :: t).dropWhile p = a :: t from by simp [List.dropWhile_cons, hp]]
        exact h

theorem head_dropWhile_false (p : Char → Bool) :
    ∀ (l : List Char) (c : Char), (l.dropWhile p).head? = some c → p c = false := by
  intro l
  induction l with
  | nil => intro c h; simp [List.dropWhile] at h
  | cons a t ih =>
      intro c h
      by_cases hp : p a
      · rw [show (a :: t).dropWhile p = t.dropWhile p from by simp [List.dropWhile_cons, hp]] at h
        exact ih c h
      · rw [show (a :: t).dropWhile p = a :: t from by simp [List.dropWhile_cons, hp]] at h
        simp only [List.head?_cons, Option.some.injEq] at h
        rw [← h]
        simpa using hp

theorem getLast_dropWhile (p : Char → Bool) :
    ∀ l : List Char, l.dropWhile p ≠ [] → (l.dropWhile p).getLast? = l.getLast? := by
  intro l
  induction l with
  | nil => intro h; simp [List.dropWhile] at h
  | cons a t ih =>
      intro h
      by_cases hp : p a
      · have hdw : (a :: t).dropWhile p = t.dropWhile p := by simp [List.dropWhile_cons, hp]
        rw [hdw] at h ⊢
        rw [ih h]
        have ht : t ≠ [] := by
          intro he
          rw [he] at h
          simp [List.dropWhile] at h
        cases t with
        | nil => exact absurd rfl ht
        | cons b t2 => simp [List.getLast?_cons_cons]
      · rw [show (a :: t).dropWhile p = a :: t from by simp [List.dropWhile_cons, hp]]

theorem chain_reverse_of (l : List Char) (h : List.Chain' noWsPair l) :
    List.Chain' noWsPair l.reverse := by
  rw [List.chain'_reverse]
  exact List.Chain'.imp (fun a b hab => noWsPair_swap hab) h

theorem trim_chain {l : List Char} (h : List.Chain' noWsPair l) :
    List.Chain' noWsPair (trimWsL l) := by
  unfold trimWsL
  exact chain_reverse_of _ (chain_dropWhile isJsWs _ (chain_reverse_of _ (chain_dropWhile isJsWs l h)))

theorem trim_head {l : List Char} {c : Char} (h : (trimWsL l).head? = some c) :
    isJsWs c = false := by
  unfold trimWsL at h
  rw [List.head?_reverse] at h
  have hne : (l.dropWhile isJsWs).reverse.dropWhile isJsWs ≠ [] := by
    intro he
    rw [he] at h
    simp at h
  rw [getLast_dropWhile isJsWs _ hne, List.getLast?_reverse] at h
  exact head_dropWhile_false isJsWs _ c h

theorem trim_last {l : List Char} {c : Char} (h : (trimWsL l).getLast? = some c) :
    isJsWs c = false := by
  unfold trimWsL at h
  rw [List.getLast?_reverse] at h
  exact head_dropWhile_false isJsWs _ c h

theorem classifyParts_no_remote :
    ∀ (parts : List (List Char)) (b : Bool) (rt : Option (List Char)) (locs : List (List Char)),
      (∀ p ∈ parts, hasRemoteSeg p = false) → (classifyParts parts b rt locs).1 = b := by
  intro parts
  induction parts with
  | nil => intro b rt locs _; rfl
  | cons p rest ih =>
      intro b rt locs hall
      have hp : hasRemoteSeg p = false := hall p (by simp)
      rw [show classifyParts (p :: rest) b rt locs = classifyParts rest b rt (locs ++ [p]) from by
        simp [classifyParts, hp]]
      exact ih b rt _ (fun q hq => hall q (by simp [hq]))

/-- C1: the detail fetch orchestrator never emits more than results_wanted
records.  The saved-count guard alone bounds the output of the detail
loop by the quota for an arbitrary URL list (so even when discovery
produced more candidates), and the candidate list handed to it by
discovery is additionally truncated to the quota. -/
theorem c1_quota_respected (fetch : String → Option Page) (quota : Nat) :
    (∀ urls : List String, ((runDetail fetch quota urls).2).length ≤ quota) ∧
    (∀ (startUrl : Option String) (pages : List (List String)) (maxPages : Nat) (dedupe : Bool),
      ((runDetail fetch quota (discover startUrl pages quota maxPages dedupe)).2).length ≤ quota) := by
  have hgen : ∀ urls : List String, ((runDetail fetch quota urls).2).length ≤ quota := by
    intro urls
    obtain ⟨h1, h2, h3⟩ := runDetailAux_spec fetch quota urls 0 [] (Nat.zero_le _)
    unfold runDetail
    rw [h3]
    simp only [List.length_nil, Nat.zero_add, Nat.sub_zero]
    exact h2
  exact ⟨hgen, fun su pages mp d => hgen _⟩

/-- C2 (amended): a detail URL whose fetch fails on every retry attempt
produces no output record at all: the detail crawler configures no
failure handler, so a request that exhausts its retry budget is only
logged and nothing reaches the dataset for that URL. -/
theorem c2_failed_fetch_no_record (fetch : String → Option Page) (quota : Nat)
    (urls : List String) (u : String) (hu : fetch u = none) :
    ((runDetail fetch quota urls).2.filter (fun r => decide (r.url = u))).length = 0 := by
  unfold runDetail
  rw [runDetailAux_no_failed fetch quota u hu urls 0 []]
  rfl

/-- C2 witness: a concrete always-failing fetch over one discovered URL
leaves the dataset without a record for that URL. -/
theorem c2_witness :
    ((runDetail (fun _ => none) 3 [("https://powertofly.com/jobs/detail/666")]).2.filter
        (fun r => decide (r.url = ("https://powertofly.com/jobs/detail/666")))).length = 0 :=
  c2_failed_fetch_no_record (fun _ => none) 3 [("https://powertofly.com/jobs/detail/666")]
    ("https://powertofly.com/jobs/detail/666") rfl

/-- C2 counterexample: the claim expects exactly one (stub) output record
for a detail URL whose fetch always times out; on the code the run emits
zero records for it. -/
theorem c2_counterexample :
    ¬ (((runDetail (fun _ => none) 3 [("https://powertofly.com/jobs/detail/555")]).2.filter
        (fun r => decide (r.url = ("https://powertofly.com/jobs/detail/555")))).length = 1) := by
  decide

/-- C3 (amended): in a discovery run without a seeded detail URL the
final candidate list is exactly the first-seen-ordered templated URLs of
the ids the search loop accumulated, truncated to the quota; it is
duplicate-free and its length is min(quota, number of distinct collected
ids). -/
theorem c3_discovery_dedup (pages : List (List String)) (quota maxPages : Nat) :
    discover none pages quota maxPages true =
      ((searchLoop true quota maxPages pages []).map (fun id => detailBase ++ id)).take quota ∧
    (discover none pages quota maxPages true).Nodup ∧
    (discover none pages quota maxPages true).length =
      min quota (searchLoop true quota maxPages pages []).length := by
  have hnodup : (searchLoop true quota maxPages pages []).Nodup :=
    searchLoop_nodup true quota maxPages pages [] List.nodup_nil
  have hmap : ((searchLoop true quota maxPages pages []).map (fun id => detailBase ++ id)).Nodup :=
    hnodup.map detailBase_append_inj
  have heq : discover none pages quota maxPages true =
      ((searchLoop true quota maxPages pages []).map (fun id => detailBase ++ id)).take quota := by
    unfold discover
    simp only [List.nil_append]
    rw [firstDedup_self hmap]
  refine ⟨heq, ?_, ?_⟩
  · rw [heq]
    exact hmap.sublist (List.take_sublist _ _)
  · rw [heq, List.length_take, List.length_map]

/-- C3 counterexample: a run seeded with a detail startUrl that carries a
query string puts two entries with the same job ID into the final
candidate list (the raw seed and the templated URL of its extracted id),
so the list is not duplicate-free and its length exceeds the id-set
size. -/
theorem c3_counterexample :
    ((discover (some ("https://powertofly.com/jobs/detail/123?src=x")) [[]] 10 20 true).map
        extractJobId = [("123"), ("123")]) ∧
    ¬ ((discover (some ("https://powertofly.com/jobs/detail/123?src=x")) [[]] 10 20 true).map
        extractJobId).Nodup := by
  exact ⟨by decide, by decide⟩

/-- C4: merge precedence in the detail handler: a non-empty title from
the structured (JSON-LD) extractor is carried into the assembled record
unchanged, regardless of what the CSS selector would yield; the CSS
fallback value is used exactly when the structured extractor left the
field unset. -/
theorem c4_merge_precedence (url t : String) (p : Page) (ld : LdData)
    (h1 : p.ld = some ld) (ht : t ≠ "") :
    (ld.title = some t → (assembleItem url p).title = some t) ∧
    (ld.title = none → (assembleItem url p).title = strOrNull (jsTrim p.titleText)) := by
  have hb : (assembleItem url p).title = jsOrNull (buildData p).title := rfl
  have hdt : (buildData p).title =
      if jsFalsy ld.title then strOrNull (jsTrim p.titleText) else ld.title := by
    simp [buildData, h1]
  constructor
  · intro hts
    rw [hb, hdt, hts]
    simp [jsFalsy, ht, jsOrNull, strOrNull]
  · intro htn
    rw [hb, hdt, htn]
    simp only [jsFalsy, if_true]
    exact jsOrNull_strOrNull _

/-- C4 witness: structured title "A" wins over CSS title "B". -/
theorem c4_witness :
    (assembleItem ("https://powertofly.com/jobs/detail/9")
        { ld := some { title := some ("A") }, titleText := "B" }).title = some ("A") :=
  (c4_merge_precedence ("https://powertofly.com/jobs/detail/9") ("A")
      { ld := some { title := some ("A") }, titleText := "B" }
      { title := some ("A") } rfl (by decide)).1 rfl

/-- C5: every record handed to the sink has the full declared field
shape (enforced by the JobRecord structure) and each field is either
null or non-empty: the string fields all pass through the (x || null)
collapse, the location fields come from normalizeLocation whose outputs
obey the same collapse, is_remote is null or true, and job_id/url are
non-empty whenever the request URL is. -/
theorem c5_record_shape (url : String) (p : Page) (h : url ≠ "") :
    (assembleItem url p).job_id ≠ "" ∧
    (assembleItem url p).url ≠ "" ∧
    goodStr (assembleItem url p).title = true ∧
    goodStr (assembleItem url p).company = true ∧
    goodStr (assembleItem url p).location = true ∧
    ((assembleItem url p).is_remote = none ∨ (assembleItem url p).is_remote = some true) ∧
    goodStr (assembleItem url p).remote_type = true ∧
    goodStr (assembleItem url p).region = true ∧
    goodStr (assembleItem url p).salary = true ∧
    goodStr (assembleItem url p).job_type = true ∧
    goodStr (assembleItem url p).date_posted = true ∧
    goodStr (assembleItem url p).description_html = true ∧
    goodStr (assembleItem url p).description_text = true := by
  obtain ⟨hl, hir, hrt, hrg⟩ := locNorm_good ['|', '/', ',', '-'] (buildData p).location
  exact ⟨extractJobId_ne_empty h, h, jsOrNull_good _, jsOrNull_good _, hl, hir, hrt, hrg,
    jsOrNull_good _, jsOrNull_good _, jsOrNull_good _, jsOrNull_good _, jsOrNull_good _⟩

/-- C5 witness: the shape invariant at a concrete URL and an empty
page. -/
theorem c5_witness :
    (assembleItem ("https://powertofly.com/jobs/detail/7") ({} : Page)).job_id ≠ "" ∧
    (assembleItem ("https://powertofly.com/jobs/detail/7") ({} : Page)).url ≠ "" ∧
    goodStr (assembleItem ("https://powertofly.com/jobs/detail/7") ({} : Page)).title = true ∧
    goodStr (assembleItem ("https://powertofly.com/jobs/detail/7") ({} : Page)).company = true ∧
    goodStr (assembleItem ("https://powertofly.com/jobs/detail/7") ({} : Page)).location = true ∧
    ((assembleItem ("https://powertofly.com/jobs/detail/7") ({} : Page)).is_remote = none ∨
      (assembleItem ("https://powertofly.com/jobs/detail/7") ({} : Page)).is_remote = some true) ∧
    goodStr (assembleItem ("https://powertofly.com/jobs/detail/7") ({} : Page)).remote_type = true ∧
    goodStr (assembleItem ("https://powertofly.com/jobs/detail/7") ({} : Page)).region = true ∧
    goodStr (assembleItem ("https://powertofly.com/jobs/detail/7") ({} : Page)).salary = true ∧
    goodStr (assembleItem ("https://powertofly.com/jobs/detail/7") ({} : Page)).job_type = true ∧
    goodStr (assembleItem ("https://powertofly.com/jobs/detail/7") ({} : Page)).date_posted = true ∧
    goodStr (assembleItem ("https://powertofly.com/jobs/detail/7") ({} : Page)).description_html = true ∧
    goodStr (assembleItem ("https://powertofly.com/jobs/detail/7") ({} : Page)).description_text = true :=
  c5_record_shape ("https://powertofly.com/jobs/detail/7") ({} : Page) (by decide)

/-- C6: the search-API revision's normalizeLocation (src/src/main.js
lines 783-812) splits only on pipe, slash, comma and hyphen, so on
"Remote · New York, NY" it returns location "NY" and remote_type
"Remote · New York"; the other four revisions (e.g. the cited
src/unnamed/part_000 lines 122-149) additionally split on the middle-dot
and bullet and return the claimed location "New York / NY" with
remote_type "Remote". -/
theorem c6_delimiter_divergence :
    normalizeLocation (some ("Remote · New York, NY")) =
      ⟨some ("NY"), some true, some ("Remote · New York"), some ("NY")⟩ ∧
    normalizeLocationP0 (some ("Remote · New York, NY")) =
      ⟨some ("New York / NY"), some true, some ("Remote"), some ("New York / NY")⟩ :=
  ⟨by decide, by decide⟩

/-- C7 (amended): is_remote is never false: it is either null or true
for every input, and in particular a non-empty raw location string none
of whose segments contains "remote" yields null (the source's
isRemote || null collapses the false flag to null). -/
theorem c7_is_remote_never_false (raw : Option String) (s : String) :
    ((normalizeLocation raw).is_remote = none ∨ (normalizeLocation raw).is_remote = some true) ∧
    (s ≠ "" → (∀ part ∈ locPartsWith ['|', '/', ',', '-'] s, hasRemoteSeg part = false) →
      (normalizeLocation (some s)).is_remote = none) := by
  constructor
  · exact (locNorm_good _ raw).2.1
  · intro hs hnp
    have hc : (classifyParts (locPartsWith ['|', '/', ',', '-'] s) false none []).1 = false :=
      classifyParts_no_remote _ false none [] hnp
    simp [normalizeLocation, normalizeLocationWith, hs, hc]

/-- C7 witness: "New York" has no remote segment and its is_remote is
null. -/
theorem c7_witness : (normalizeLocation (some ("New York"))).is_remote = none :=
  (c7_is_remote_never_false (some ("New York")) ("New York")).2 (by decide) (by decide)

/-- C7 counterexample: for the non-empty remote-free input "New York"
the claim expects is_remote = false, but the code returns null. -/
theorem c7_counterexample :
    (normalizeLocation (some ("New York"))).is_remote ≠ some false ∧
    (normalizeLocation (some ("New York"))).is_remote = none :=
  ⟨by decide, by decide⟩

/-- C8: extractJobId is total and best-effort: for a string that parses
as a URL whose path has at least one non-empty segment it returns the
last non-empty path segment, and for a string that fails URL parsing it
returns the input unchanged. -/
theorem c8_extractJobId (s : String) :
    (parseUrl s = none → extractJobId s = s) ∧
    (∀ u : UrlParts, parseUrl s = some u → pathSegs u ≠ [] →
      extractJobId s = lastD (pathSegs u) ("")) := by
  constructor
  · intro hp
    unfold extractJobId
    rw [hp]
  · intro u hp hne
    have hmem := lastD_mem ("") (pathSegs u) hne
    have hnem : lastD (pathSegs u) ("") ≠ "" := by
      unfold pathSegs at hmem
      have h2 := (List.mem_filter.mp hmem).2
      exact of_decide_eq_true h2
    have hgoal : extractJobId s =
        if lastD (pathSegs u) ("") = "" then s else lastD (pathSegs u) ("") := by
      unfold extractJobId
      rw [hp]
    rw [hgoal, if_neg hnem]

/-- C8 witness: the two concrete examples of the claim. -/
theorem c8_witness :
    extractJobId ("https://site.example/jobs/detail/998877") = ("998877") ∧
    extractJobId ("not a url") = ("not a url") := by
  constructor
  · have h := (c8_extractJobId ("https://site.example/jobs/detail/998877")).2
      ⟨("/jobs/detail/998877")⟩ (by decide) (by decide)
    rw [h]
    decide
  · exact (c8_extractJobId ("not a url")).1 (by decide)

/-- C9: for every HTML input, a non-null cleanText result contains no
two adjacent whitespace characters (hence no whitespace run of length
two or more) and neither starts nor ends with whitespace; the empty
input yields null. -/
theorem c9_cleanText :
    (∀ (html s : String), cleanText html = some s →
      List.Chain' noWsPair s.data ∧
      (∀ c, s.data.head? = some c → isJsWs c = false) ∧
      (∀ c, s.data.getLast? = some c → isJsWs c = false)) ∧
    cleanText ("") = none := by
  constructor
  · intro html s hs
    by_cases hh : html = ""
    · rw [hh] at hs
      rw [show cleanText ("") = none from rfl] at hs
      exact Option.noConfusion hs
    · have hs2 : (if (trimWsL (collapseWsL false (stripTagsL false html.data))).isEmpty then none
          else some (⟨trimWsL (collapseWsL false (stripTagsL false html.data))⟩ : String)) =
          some s := by
        have hu : cleanText html = (if (trimWsL (collapseWsL false (stripTagsL false html.data))).isEmpty
            then none
            else some (⟨trimWsL (collapseWsL false (stripTagsL false html.data))⟩ : String)) := by
          unfold cleanText
          rw [if_neg hh]
        rw [← hu]
        exact hs
      by_cases hn : (trimWsL (collapseWsL false (stripTagsL false html.data))).isEmpty
      · rw [if_pos hn] at hs2
        exact Option.noConfusion hs2
      · rw [if_neg hn] at hs2
        obtain rfl : s = ⟨trimWsL (collapseWsL false (stripTagsL false html.data))⟩ :=
          (Option.some.inj hs2).symm
        refine ⟨trim_chain (collapse_chain _ false), ?_, ?_⟩
        · intro c hc
          exact trim_head hc
        · intro c hc
          exact trim_last hc
  · rfl

/-- C9 witness: a concrete page whose cleaned text is whitespace
normalized. -/
theorem c9_witness :
    List.Chain' noWsPair ("a b" : String).data ∧
    cleanText ("<p> a   b </p>") = some ("a b") := by
  constructor
  · exact (c9_cleanText.1 ("<p> a   b </p>") ("a b") (by decide)).1
  · decide

/-- C10: the dedupe flag has no observable effect: the search loop's
candidate set is identical under both flag values (the Set add is itself
a no-op on a present member), each collected id appears at most once
either way, and the final discovery output is unchanged. -/
theorem c10_dedupe_noop (quota fuel : Nat) (pages : List (List String)) :
    searchLoop true quota fuel pages [] = searchLoop false quota fuel pages [] ∧
    (∀ d : Bool, (searchLoop d quota fuel pages []).Nodup) ∧
    (∀ (startUrl : Option String),
      discover startUrl pages quota fuel true = discover startUrl pages quota fuel false) := by
  refine ⟨searchLoop_flag_eq quota fuel pages [], ?_, ?_⟩
  · intro d
    exact searchLoop_nodup d quota fuel pages [] List.nodup_nil
  · intro su
    unfold discover
    simp only [searchLoop_flag_eq]
